import Mathlib

/-!
Verification development for the intelligent-document-auditor repository.

Shallow embedding conventions:
* Python `str` values that the proofs must take apart (the chunking utility)
  are modelled as `List Char`; other strings stay Lean `String`.
* Python `float` durations are modelled as `ℚ`.
* Calls into external backends (pypdf, llama-index readers / index builders /
  query engines) are modelled by explicit oracle records supplying the
  outcome of each call; the OS file operations are modelled by an explicit
  file-system state.
* A Python function that can raise is modelled as returning `Except String`,
  the payload being the exception message.
-/

namespace Auditor

/-! ### DocumentProcessor.chunk_text (src/utils/document_processor.py, lines 36-69) -/

/-- Python `str.strip()` whitespace predicate (ASCII whitespace; the inputs the
proofs touch are ASCII). -/
def pyIsSpace (c : Char) : Bool :=
  c == ' ' || c == '\t' || c == '\n' || c == '\r' || c == '\x0b' || c == '\x0c'

/-- Python `str.strip()`: drop whitespace from both ends. -/
def pyStrip (s : List Char) : List Char :=
  (((s.dropWhile pyIsSpace).reverse.dropWhile pyIsSpace)).reverse

/-- Helper for `splitDotSpace`: prepend a character to the first piece. -/
def consHead (c : Char) : List (List Char) → List (List Char)
  | [] => [[c]]
  | h :: t => (c :: h) :: t

/-- Python split of `text` on the literal two-character dot-space separator,
left to right, non-overlapping.  `splitDotSpace [] = [[]]` matches Python,
where splitting the empty string yields one empty piece. -/
def splitDotSpace : List Char → List (List Char)
  | [] => [[]]
  | [c] => [[c]]
  | c :: d :: rest =>
      if c = '.' ∧ d = ' ' then [] :: splitDotSpace rest
      else consHead c (splitDotSpace (d :: rest))

/-- Python `sentence = sentence + ". " if sentence else ""`: reattach the
separator to a non-empty piece. -/
def mkSentence (s : List Char) : List Char :=
  if s = [] then [] else s ++ ['.', ' ']

/-- The loop of `DocumentProcessor.chunk_text`: iterate over the split
pieces carrying `current_chunk` and the accumulated `chunks`, then flush the
final residue when its strip is non-empty. -/
def chunkLoop (cs : Int) : List (List Char) → List Char → List (List Char) → List (List Char)
  | [], current, chunks =>
      if pyStrip current = [] then chunks else chunks ++ [pyStrip current]
  | s :: rest, current, chunks =>
      if (current.length : Int) + (mkSentence s).length > cs * 4 then
        chunkLoop cs rest (mkSentence s)
          (if current = [] then chunks else chunks ++ [pyStrip current])
      else
        chunkLoop cs rest (current ++ mkSentence s) chunks

/-- Model of `DocumentProcessor.chunk_text`. -/
def chunk_text (text : List Char) (chunk_size : Int) : List (List Char) :=
  chunkLoop chunk_size (splitDotSpace text) [] []

/-! ### The spec's chunking accumulator (refinement target for claim C3)

`chunkTextSpec` is deliberately translated from the SPEC's words, not from the
source, to be compared with `chunk_text`: split on ". ", reassemble the period
(so that the sentence stream reproduces the input exactly), greedily accumulate
against the `chunk_size * 4` character bound, flush the final partial chunk. -/

/-- Reattach the ". " separator removed by the split to every sentence except
the last, so that concatenating the sentences reproduces the input. -/
def reassemble : List (List Char) → List (List Char)
  | [] => []
  | [p] => [p]
  | p :: rest => (p ++ ['.', ' ']) :: reassemble rest

/-- Greedy accumulator over the reassembled sentences, per the spec's words. -/
def greedyAcc (cs : Int) : List (List Char) → List Char → List (List Char)
  | [], current => if current = [] then [] else [current]
  | s :: rest, current =>
      if (current.length : Int) + s.length > cs * 4 then
        (if current = [] then greedyAcc cs rest s else current :: greedyAcc cs rest s)
      else greedyAcc cs rest (current ++ s)

/-- The chunking function exactly as the spec words it (claim C3's refinement
target). -/
def chunkTextSpec (text : List Char) (chunk_size : Int) : List (List Char) :=
  greedyAcc chunk_size (reassemble (splitDotSpace text)) []

/-- Fold formulation of the `chunk_text` loop body (used to state the amended
form of claim C3): state is `(current_chunk, chunks)`. -/
def chunkFold (cs : Int) (st : List Char × List (List Char)) (s : List Char) :
    List Char × List (List Char) :=
  if (st.1.length : Int) + (mkSentence s).length > cs * 4 then
    (mkSentence s, if st.1 = [] then st.2 else st.2 ++ [pyStrip st.1])
  else (st.1 ++ mkSentence s, st.2)

/-- Final flush of the fold state: append the stripped residue when it is not
whitespace-only. -/
def chunkFinish (st : List Char × List (List Char)) : List (List Char) :=
  if pyStrip st.1 = [] then st.2 else st.2 ++ [pyStrip st.1]

/-- The accumulator the code actually implements, written as a fold: the
". " separator is reattached to every non-empty sentence (the final one
included), a flushed chunk is stripped, the pending chunk is flushed mid-loop
only when non-empty, and the final residue only when its strip is non-empty. -/
def chunkTextAmended (text : List Char) (chunk_size : Int) : List (List Char) :=
  chunkFinish ((splitDotSpace text).foldl (chunkFold chunk_size) ([], []))

/-! ### PerformanceTracker.format_time (src/utils/performance_tracker.py, lines 49-66)

Durations are modelled as `ℚ`.  Python fixed-point float formatting with n
decimal places is modelled by `fmtFixed`: scale by `10 ^ n`, round to the
nearest integer (ties to even, as CPython does), and print with the decimal
point re-inserted. -/

/-- Round to the nearest integer, ties to even. -/
def rndHE (q : ℚ) : Int :=
  if q - ⌊q⌋ < 1 / 2 then ⌊q⌋
  else if 1 / 2 < q - ⌊q⌋ then ⌊q⌋ + 1
  else if ⌊q⌋ % 2 = 0 then ⌊q⌋ else ⌊q⌋ + 1

/-- Left-pad a digit string with zeros to the requested width. -/
def padZeros (s : String) (n : Nat) : String :=
  String.mk (List.replicate (n - s.length) '0') ++ s

/-- Print the scaled integer `m` with the decimal point re-inserted `n` digits
from the right. -/
def fmtOfInt (m : Int) (n : Nat) : String :=
  (if m < 0 then "-" else "") ++ toString (m.natAbs / 10 ^ n) ++
    (if n = 0 then "" else "." ++ padZeros (toString (m.natAbs % 10 ^ n)) n)

/-- Python fixed-point formatting of a rational with `n` decimal places.
(The sign of a negative value rounding to zero is not modelled; the claims
only use non-negative inputs.) -/
def fmtFixed (q : ℚ) (n : Nat) : String :=
  fmtOfInt (rndHE (q * (10 : ℚ) ^ n)) n

/-- Model of `PerformanceTracker.format_time`.  The minute count computed by
the source as int of floordiv is the floor of `seconds / 60`, and the Python
float mod by 60 is `seconds - 60 * ⌊seconds / 60⌋`. -/
def format_time (seconds : ℚ) : String :=
  if seconds < 1 then fmtFixed (seconds * 1000) 1 ++ "ms"
  else if seconds < 60 then fmtFixed seconds 2 ++ "s"
  else
    toString (⌊seconds / 60⌋) ++ "m " ++ fmtFixed (seconds - 60 * ⌊seconds / 60⌋) 1 ++ "s"

/-! ### QueryResult (src/utils/performance_tracker.py, lines 69-92) -/

/-- A retrieved source node as `get_source_text` probes it: either it exposes a
`text` attribute, or a `get_content` method, or neither (then `str(node)` is
used). -/
inductive SourceNode where
  | textAttr (text : String)
  | contentMethod (content : String)
  | plain (rendered : String)
deriving DecidableEq

/-- The text `get_source_text` extracts from one node. -/
def nodeText : SourceNode → String
  | .textAttr t => t
  | .contentMethod c => c
  | .plain s => s

/-- Model of `QueryResult`: response, retrieved source nodes, execution time
and a creation timestamp. -/
structure QueryResult where
  response : String
  source_nodes : List SourceNode
  execution_time : ℚ
  timestamp : ℚ
deriving DecidableEq

/-- Model of `QueryResult.get_source_text`. -/
def get_source_text (r : QueryResult) : String :=
  if r.source_nodes = [] then "No sources retrieved"
  else String.intercalate "\n---\n" ((r.source_nodes.map nodeText).take 3)

/-! ### The RAG engines (src/rag_engines/vector_engine.py, src/rag_engines/tree_engine.py)

Both engine classes have the same observable skeleton; they differ only in the
temporary directory name, the error-message text, the chunking constants handed
to the backend and the `similarity_top_k` value.  The opaque llama-index index
object is an `IndexHandle`; the backend calls inside `build_index` and `query`
are oracles (`BuildEnv`, `QueryEnv`) saying whether each external call succeeds
and with what payload.  OS file operations themselves are assumed not to fail;
their effect is tracked in an explicit file-system state `FS` whose doc files
are identified by (temporary directory, document index), a faithful key for
the path the source renders from the directory name and the doc number. -/

/-- Opaque handle to a built llama-index index. -/
structure IndexHandle where
  id : Nat
deriving DecidableEq

/-- Mutable state of one engine instance (`self.model_name`, `self.index`,
`self.build_time`).  `index = none` models Python `self.index is None`. -/
structure EngineState where
  model_name : String
  index : Option IndexHandle
  build_time : ℚ
deriving DecidableEq

/-- Freshly constructed engine (after `initialize_llm_and_embeddings`
succeeded in the constructor): no index, zero build time. -/
def mkEngine (model_name : String) : EngineState :=
  { model_name := model_name, index := none, build_time := 0 }

/-- Model of `get_build_time`. -/
def get_build_time (e : EngineState) : ℚ :=
  e.build_time

/-- Model of `is_initialized`: Python tests that the index is not None. -/
def is_initialized (e : EngineState) : Bool :=
  e.index.isSome

/-- File-system state: temp doc files (identified by directory and doc index)
and directories. -/
structure FS where
  files : List (String × Nat)
  dirs : List String
deriving DecidableEq

/-- Writing the doc files `dir/doc_i.txt` for `i < n` (opening an existing file
adds no new directory entry). -/
def writeFiles (dir : String) (n : Nat) (l : List (String × Nat)) : List (String × Nat) :=
  (List.range n).foldl (fun acc i => if (dir, i) ∈ acc then acc else acc ++ [(dir, i)]) l

/-- Removal of each doc file in order, via `os.remove`. -/
def removeFiles (dir : String) (n : Nat) (l : List (String × Nat)) : List (String × Nat) :=
  (List.range n).foldl (fun acc i => acc.erase (dir, i)) l

/-- Outcome oracle for the external calls inside `build_index`:
`loadOk` is `SimpleDirectoryReader(...).load_data()`, `indexOk` is
`VectorStoreIndex.from_documents` / `TreeIndex.from_documents`, `duration` the
wall-clock span `time.time() - start_time` measured on the success path, and
`loadErr` / `indexErr` the `str(e)` of the raised exception otherwise. -/
structure BuildEnv where
  loadOk : Bool
  indexOk : Bool
  duration : ℚ
  builtIndex : IndexHandle
  loadErr : String
  indexErr : String
deriving DecidableEq

/-- Model of `build_index`, shared skeleton of both engines: make the temp
directory, write one file per document, load them, clean the temp files and
directory up, build the index, store the result and the duration.  Any raised
exception is wrapped as `errText ++ str(e)` and the method re-raises; no
cleanup runs on the path where `load_data` raises.  Returns the wrapped
result, the new engine state and the new file system. -/
def build_index (temp_dir errText : String) (docs : List String) (env : BuildEnv)
    (e : EngineState) (fs : FS) : Except String ℚ × EngineState × FS :=
  let dirs1 := if temp_dir ∈ fs.dirs then fs.dirs else fs.dirs ++ [temp_dir]
  let files1 := writeFiles temp_dir docs.length fs.files
  if env.loadOk then
    let fsClean : FS := { files := removeFiles temp_dir docs.length files1,
                          dirs := dirs1.erase temp_dir }
    if env.indexOk then
      (Except.ok env.duration,
       { e with index := some env.builtIndex, build_time := env.duration }, fsClean)
    else
      (Except.error (errText ++ env.indexErr), e, fsClean)
  else
    (Except.error (errText ++ env.loadErr), e, { files := files1, dirs := dirs1 })

/-- Model of `VectorRAGEngine.build_index`. -/
def vector_build_index (docs : List String) (env : BuildEnv) (e : EngineState) (fs : FS) :
    Except String ℚ × EngineState × FS :=
  build_index "temp_docs" "Failed to build vector index: " docs env e fs

/-- Model of `TreeRAGEngine.build_index`. -/
def tree_build_index (docs : List String) (env : BuildEnv) (e : EngineState) (fs : FS) :
    Except String ℚ × EngineState × FS :=
  build_index "temp_docs_tree" "Failed to build tree index: " docs env e fs

/-- Outcome oracle for the external calls inside `query`: whether the backend
query succeeds, and its payload (`str(response)`, the `source_nodes`
attribute, the measured wall-clock span, the construction timestamp) or the
exception text. -/
structure QueryEnv where
  queryOk : Bool
  response : String
  source_nodes : List SourceNode
  duration : ℚ
  now : ℚ
  queryErr : String
deriving DecidableEq

/-- The message of the exception raised by `query` before a build. -/
def notBuiltMsg : String := "Index not built. Call build_index() first."

/-- Model of `query`, shared skeleton of both engines: raise the not-built
error when `self.index is None` without touching the backend, otherwise run
the backend query (wrapping its failures).  The second component records the
`similarity_top_k` handed to `index.as_query_engine` — `none` when the backend
was never invoked. -/
def query (e : EngineState) (top_k : Nat) (env : QueryEnv) :
    Except String QueryResult × Option Nat :=
  match e.index with
  | none => (Except.error notBuiltMsg, none)
  | some _ =>
      if env.queryOk then
        (Except.ok { response := env.response, source_nodes := env.source_nodes,
                     execution_time := env.duration, timestamp := env.now }, some top_k)
      else
        (Except.error ("Query failed: " ++ env.queryErr), some top_k)

/-- Model of `VectorRAGEngine.query`, which passes `similarity_top_k=3`. -/
def vector_query (e : EngineState) (env : QueryEnv) : Except String QueryResult × Option Nat :=
  query e 3 env

/-- Model of `TreeRAGEngine.query`, which passes `similarity_top_k=2`. -/
def tree_query (e : EngineState) (env : QueryEnv) : Except String QueryResult × Option Nat :=
  query e 2 env

/-! ### DocumentProcessor.validate_pdf (src/utils/document_processor.py, lines 71-94)

The pypdf capability is an oracle: `parseBytes` / `parsePath` model
`PdfReader(...)` returning a document (page count) or raising.  A stream-based
upload is a `ByteStream`; `read()` consumes from the current position to the
end, `seek(0)` rewinds. -/

/-- What the model keeps of a parsed PDF: its page count. -/
structure PdfDoc where
  numPages : Nat
deriving DecidableEq

/-- The pypdf capability. -/
structure PdfLib where
  parseBytes : List Nat → Except String PdfDoc
  parsePath : String → Except String PdfDoc

/-- A stream-based uploaded file: contents and current read position. -/
structure ByteStream where
  data : List Nat
  pos : Nat
deriving DecidableEq

/-- The two kinds of `pdf_file` argument: an object with a `read` method, or a
path. -/
inductive PdfInput where
  | stream (s : ByteStream)
  | path (p : String)
deriving DecidableEq

/-- Model of `DocumentProcessor.validate_pdf`: returns the pair of the
validity flag and the error message, and
the input as the call leaves it (the stream position is the only mutable
part).  In the stream case `pdf_file.read()` advances the position to the end;
`pdf_file.seek(0)` runs only after `PdfReader` succeeded. -/
def validate_pdf (lib : PdfLib) : PdfInput → (Bool × String) × PdfInput
  | .stream s =>
      let afterRead : ByteStream := { s with pos := s.data.length }
      match lib.parseBytes (s.data.drop s.pos) with
      | .error e => ((false, "Invalid PDF file: " ++ e), .stream afterRead)
      | .ok doc =>
          let afterSeek : ByteStream := { afterRead with pos := 0 }
          if doc.numPages = 0 then
            ((false, "PDF file appears to be empty"), .stream afterSeek)
          else
            ((true, ""), .stream afterSeek)
  | .path p =>
      match lib.parsePath p with
      | .error e => ((false, "Invalid PDF file: " ++ e), .path p)
      | .ok doc =>
          if doc.numPages = 0 then
            ((false, "PDF file appears to be empty"), .path p)
          else
            ((true, ""), .path p)

/-! ### The comparison step of the orchestrator (src/app.py, lines 205-212) -/

/-- The display-ready comparison the orchestrator assembles. -/
structure ComparisonResult where
  vector_result : QueryResult
  tree_result : QueryResult
  time_diff : ℚ
  faster_engine : String
deriving DecidableEq

/-- app.py lines 206-207: `time_diff = abs(vector - tree)`;
`faster_engine = "Vector" if vector < tree else "Tree"`. -/
def buildComparison (vr tr : QueryResult) : ComparisonResult :=
  { vector_result := vr, tree_result := tr,
    time_diff := |vr.execution_time - tr.execution_time|,
    faster_engine := if vr.execution_time < tr.execution_time then "Vector" else "Tree" }

/-! ### Concrete sample values used by witnesses and counterexamples -/

/-- A query result with no sources and zero execution time. -/
def tieResult : QueryResult :=
  { response := "", source_nodes := [], execution_time := 0, timestamp := 0 }

/-- A build oracle whose `load_data` call raises with message "io error". -/
def failLoadEnv : BuildEnv :=
  { loadOk := false, indexOk := true, duration := 0, builtIndex := ⟨0⟩,
    loadErr := "io error", indexErr := "" }

/-- A build oracle where every external call succeeds. -/
def succEnv : BuildEnv :=
  { loadOk := true, indexOk := true, duration := 2, builtIndex := ⟨1⟩,
    loadErr := "", indexErr := "" }

/-- An empty file system. -/
def emptyFS : FS := { files := [], dirs := [] }

/-- A query oracle whose backend call succeeds. -/
def okQueryEnv : QueryEnv :=
  { queryOk := true, response := "resp", source_nodes := [], duration := 1, now := 0,
    queryErr := "" }

/-- The characters of "Hello". -/
def helloChars : List Char := ['H', 'e', 'l', 'l', 'o']

/-- A pypdf oracle that rejects every byte stream and path as corrupt. -/
def badLib : PdfLib :=
  { parseBytes := fun _ => Except.error "corrupt",
    parsePath := fun _ => Except.error "corrupt" }

/-- A three-byte stream positioned at its start. -/
def sampleStream : ByteStream := { data := [1, 2, 3], pos := 0 }

/-- A source node whose text happens to equal the placeholder string. -/
def placeholderNode : SourceNode := SourceNode.textAttr "No sources retrieved"

/-- A query result retrieving exactly `placeholderNode`. -/
def placeholderResult : QueryResult :=
  { response := "", source_nodes := [placeholderNode], execution_time := 0, timestamp := 0 }

/-- A query result with two retrieved fragments. -/
def twoNodeResult : QueryResult :=
  { response := "", source_nodes := [SourceNode.textAttr "a", SourceNode.plain "b"],
    execution_time := 0, timestamp := 0 }

/-! ## Supporting lemmas -/

/-- Evaluation helper: `rndHE` when the fractional part is below one half. -/
theorem rndHE_low (q : ℚ) (f : Int) (h1 : ⌊q⌋ = f) (h2 : q - f < 1 / 2) :
    rndHE q = f := by
  simp only [rndHE, h1, if_pos h2]

/-- Evaluation helper: `rndHE` when the fractional part is above one half. -/
theorem rndHE_high (q : ℚ) (f : Int) (h1 : ⌊q⌋ = f) (h2 : 1 / 2 < q - f) :
    rndHE q = f + 1 := by
  simp only [rndHE, h1, if_neg (not_lt.mpr h2.le), if_pos h2]

theorem mem_dropWhile (p : Char → Bool) (c : Char) (hc : p c = false) :
    ∀ l : List Char, c ∈ l → c ∈ l.dropWhile p := by
  intro l
  induction l with
  | nil => simp
  | cons a t ih =>
      intro hmem
      rw [List.dropWhile_cons]
      by_cases ha : p a
      · rw [if_pos ha]
        rcases List.mem_cons.mp hmem with h1 | h2
        · subst h1; rw [hc] at ha; exact absurd ha (by simp)
        · exact ih h2
      · rw [if_neg ha]; exact hmem

theorem mem_pyStrip (c : Char) (hc : pyIsSpace c = false) (l : List Char)
    (hmem : c ∈ l) : c ∈ pyStrip l := by
  unfold pyStrip
  exact List.mem_reverse.mpr
    (mem_dropWhile _ c hc _
      (List.mem_reverse.mpr (mem_dropWhile _ c hc _ hmem)))

theorem head?_dropWhile_false (p : Char → Bool) :
    ∀ l : List Char, ∀ c, (l.dropWhile p).head? = some c → p c = false := by
  intro l
  induction l with
  | nil => simp
  | cons a t ih =>
      intro c h
      rw [List.dropWhile_cons] at h
      by_cases ha : p a
      · rw [if_pos ha] at h; exact ih c h
      · rw [if_neg ha] at h
        simp only [List.head?_cons, Option.some.injEq] at h
        subst h
        exact Bool.not_eq_true _ ▸ (by simpa using ha)

theorem dropWhile_eq_self_of_head? (p : Char → Bool) (l : List Char)
    (h : ∀ c, l.head? = some c → p c = false) : l.dropWhile p = l := by
  cases l with
  | nil => simp
  | cons a t =>
      rw [List.dropWhile_cons, if_neg]
      simp [h a rfl]

theorem pyStrip_idem (l : List Char) : pyStrip (pyStrip l) = pyStrip l := by
  unfold pyStrip
  have hB : ∀ m : List Char,
      (m.dropWhile pyIsSpace).dropWhile pyIsSpace = m.dropWhile pyIsSpace := by
    intro m
    exact dropWhile_eq_self_of_head? _ _ (head?_dropWhile_false _ m)
  have hpre : ((l.dropWhile pyIsSpace).reverse.dropWhile pyIsSpace).reverse.dropWhile pyIsSpace
      = ((l.dropWhile pyIsSpace).reverse.dropWhile pyIsSpace).reverse := by
    apply dropWhile_eq_self_of_head?
    intro c hc
    obtain ⟨s, hs⟩ := List.dropWhile_suffix (l := (l.dropWhile pyIsSpace).reverse)
      (p := pyIsSpace)
    have hA : l.dropWhile pyIsSpace =
        ((l.dropWhile pyIsSpace).reverse.dropWhile pyIsSpace).reverse ++ s.reverse := by
      have h2 := congrArg List.reverse hs
      simpa [List.reverse_append] using h2.symm
    rcases hrev : ((l.dropWhile pyIsSpace).reverse.dropWhile pyIsSpace).reverse with _ | ⟨a, t⟩
    · rw [hrev] at hc; simp at hc
    · rw [hrev] at hc
      simp only [List.head?_cons, Option.some.injEq] at hc
      rw [← hc]
      apply head?_dropWhile_false pyIsSpace l a
      rw [hA, hrev]
      simp
  rw [hpre, List.reverse_reverse, hB]

theorem dropWhile_append_of_all (p : Char → Bool) (l m : List Char)
    (h : ∀ c ∈ l, p c = true) : (l ++ m).dropWhile p = m.dropWhile p := by
  induction l with
  | nil => simp
  | cons a t ih =>
      rw [List.cons_append, List.dropWhile_cons, if_pos (by simp [h a (by simp)])]
      exact ih (fun c hc => h c (by simp [hc]))

theorem splitDotSpace_no_dot : ∀ l : List Char, '.' ∉ l → splitDotSpace l = [l] := by
  intro l
  induction l with
  | nil => intro _; rfl
  | cons c rest ih =>
      intro h
      cases rest with
      | nil => rfl
      | cons d rest2 =>
          have hc : c ≠ '.' := fun hcc => h (by simp [hcc])
          rw [splitDotSpace, if_neg (by intro hand; exact hc hand.1)]
          rw [ih (fun hd => h (List.mem_cons_of_mem c hd))]
          rfl

theorem chunkLoop_chunks (cs : Int) :
    ∀ ss : List (List Char), ∀ cur chunks,
      (cur = [] ∨ '.' ∈ cur) →
      (∀ ch ∈ chunks, ch ≠ [] ∧ pyStrip ch = ch) →
      ∀ ch ∈ chunkLoop cs ss cur chunks, ch ≠ [] ∧ pyStrip ch = ch := by
  intro ss
  induction ss with
  | nil =>
      intro cur chunks _ hch ch hmem
      rw [chunkLoop] at hmem
      by_cases h : pyStrip cur = []
      · rw [if_pos h] at hmem; exact hch ch hmem
      · rw [if_neg h] at hmem
        rcases List.mem_append.mp hmem with h1 | h2
        · exact hch ch h1
        · have heq : ch = pyStrip cur := by simpa using h2
          subst heq
          exact ⟨h, pyStrip_idem cur⟩
  | cons s rest ih =>
      intro cur chunks hcur hch
      have hsent : mkSentence s = [] ∨ '.' ∈ mkSentence s := by
        by_cases hs : s = []
        · left; simp [mkSentence, hs]
        · right; simp [mkSentence, hs]
      have hemit : ∀ ch ∈ (if cur = [] then chunks else chunks ++ [pyStrip cur]),
          ch ≠ [] ∧ pyStrip ch = ch := by
        by_cases hc : cur = []
        · rw [if_pos hc]; exact hch
        · rw [if_neg hc]
          intro ch hm
          rcases List.mem_append.mp hm with h1 | h2
          · exact hch ch h1
          · have heq : ch = pyStrip cur := by simpa using h2
            subst heq
            have hdot : '.' ∈ cur := hcur.resolve_left hc
            have hmem2 : '.' ∈ pyStrip cur := mem_pyStrip '.' (by decide) cur hdot
            exact ⟨List.ne_nil_of_mem hmem2, pyStrip_idem cur⟩
      rw [chunkLoop]
      by_cases hcond : (cur.length : Int) + (mkSentence s).length > cs * 4
      · rw [if_pos hcond]
        exact ih (mkSentence s) _ hsent hemit
      · rw [if_neg hcond]
        apply ih (cur ++ mkSentence s) chunks _ hch
        rcases hcur with h1 | h2
        · subst h1; simpa using hsent
        · right; exact List.mem_append.mpr (Or.inl h2)

theorem chunkLoop_eq_foldl (cs : Int) :
    ∀ ss : List (List Char), ∀ cur chunks,
      chunkLoop cs ss cur chunks = chunkFinish (ss.foldl (chunkFold cs) (cur, chunks)) := by
  intro ss
  induction ss with
  | nil => intro cur chunks; rfl
  | cons s rest ih =>
      intro cur chunks
      rw [chunkLoop, List.foldl_cons]
      by_cases hcond : (cur.length : Int) + (mkSentence s).length > cs * 4
      · rw [if_pos hcond, ih]
        congr 1
        simp only [chunkFold, if_pos hcond]
      · rw [if_neg hcond, ih]
        congr 1
        simp only [chunkFold, if_neg hcond]

theorem chunk_text_nil (cs : Int) : chunk_text [] cs = [] := by
  rw [chunk_text]
  show chunkLoop cs [[]] [] [] = []
  rw [chunkLoop]
  split <;> simp [mkSentence, chunkLoop, pyStrip]

theorem chunk_text_ws (text : List Char) (cs : Int) (hne : text ≠ [])
    (hws : ∀ c ∈ text, pyIsSpace c = true) : chunk_text text cs = [['.']] := by
  have hdot : '.' ∉ text := fun hd => absurd (hws '.' hd) (by decide)
  have hsen : mkSentence text = text ++ ['.', ' '] := by rw [mkSentence, if_neg hne]
  have hstrip : pyStrip (text ++ ['.', ' ']) = ['.'] := by
    unfold pyStrip
    rw [dropWhile_append_of_all pyIsSpace text ['.', ' '] hws]
    rfl
  rw [chunk_text, splitDotSpace_no_dot text hdot, chunkLoop]
  split
  · rw [if_pos rfl, chunkLoop, hsen, hstrip]
    simp
  · rw [List.nil_append, chunkLoop, hsen, hstrip]
    simp

theorem writeFiles_eq (dir : String) :
    ∀ (n : Nat) (l : List (String × Nat)), (∀ i, (dir, i) ∉ l) →
      writeFiles dir n l = l ++ (List.range n).map (fun i => (dir, i)) := by
  intro n
  induction n with
  | zero => intro l _; simp [writeFiles]
  | succ n ih =>
      intro l h
      rw [writeFiles, List.range_succ, List.foldl_append]
      have hw := ih l h
      rw [writeFiles] at hw
      rw [hw]
      simp only [List.foldl_cons, List.foldl_nil]
      have hnotin : (dir, n) ∉ l ++ (List.range n).map (fun i => (dir, i)) := by
        intro hmem
        rcases List.mem_append.mp hmem with h1 | h2
        · exact h n h1
        · simp only [List.mem_map] at h2
          obtain ⟨i, hi, hieq⟩ := h2
          have h3 : i = n := congrArg Prod.snd hieq
          subst h3
          exact absurd (List.mem_range.mp hi) (lt_irrefl i)
      rw [if_neg hnotin]
      simp [List.map_append, List.append_assoc]

theorem removeFiles_restores (dir : String) :
    ∀ (n : Nat) (l m : List (String × Nat)),
      (∀ i, i < n → (dir, i) ∉ l) → (∀ i, i < n → (dir, i) ∉ m) →
      (List.range n).foldl (fun acc i => acc.erase (dir, i))
          (l ++ (List.range n).map (fun i => (dir, i)) ++ m) = l ++ m := by
  intro n
  induction n with
  | zero => intro l m _ _; simp
  | succ n ih =>
      intro l m hl hm
      rw [List.range_succ, List.foldl_append]
      simp only [List.map_append, List.map_cons, List.map_nil]
      have hassoc : l ++ ((List.range n).map (fun i => (dir, i)) ++ [(dir, n)]) ++ m
          = l ++ (List.range n).map (fun i => (dir, i)) ++ ((dir, n) :: m) := by
        simp [List.append_assoc]
      rw [hassoc, ih l ((dir, n) :: m) (fun i hi => hl i (Nat.lt_succ_of_lt hi))
        (fun i hi hmem => by
          rcases List.mem_cons.mp hmem with h1 | h2
          · have h3 : i = n := congrArg Prod.snd h1
            subst h3; exact absurd hi (lt_irrefl i)
          · exact hm i (Nat.lt_succ_of_lt hi) h2)]
      simp only [List.foldl_cons, List.foldl_nil]
      rw [List.erase_append_right _ (fun hmem => hl n (Nat.lt_succ_self n) hmem),
        List.erase_cons_head]

theorem query_failed_ne_notBuilt (s : String) : "Query failed: " ++ s ≠ notBuiltMsg := by
  obtain ⟨l⟩ := s
  intro h
  have h2 := congrArg String.data h
  simp [String.data_append, notBuiltMsg] at h2

theorem invalid_pdf_msg_ne_empty (s : String) : "Invalid PDF file: " ++ s ≠ "" := by
  obtain ⟨l⟩ := s
  intro h
  have h2 := congrArg String.data h
  simp [String.data_append] at h2

theorem removeFiles_writeFiles (dir : String) (n : Nat) (l : List (String × Nat))
    (h : ∀ i, (dir, i) ∉ l) : removeFiles dir n (writeFiles dir n l) = l := by
  rw [writeFiles_eq dir n l h, removeFiles]
  have h2 := removeFiles_restores dir n l [] (fun i _ => h i) (by simp)
  simpa using h2

theorem build_index_fs (td et : String) (docs : List String) (env : BuildEnv)
    (e : EngineState) (fs : FS) (h1 : ∀ i, (td, i) ∉ fs.files) (h2 : td ∉ fs.dirs) :
    (env.loadOk = true → (build_index td et docs env e fs).2.2 = fs) ∧
    (env.loadOk = false →
      (build_index td et docs env e fs).1 = Except.error (et ++ env.loadErr) ∧
      td ∈ (build_index td et docs env e fs).2.2.dirs ∧
      (docs ≠ [] → (td, 0) ∈ (build_index td et docs env e fs).2.2.files)) := by
  constructor
  · intro hl
    have hfiles : removeFiles td docs.length (writeFiles td docs.length fs.files) = fs.files :=
      removeFiles_writeFiles td docs.length fs.files h1
    have hdirs : (if td ∈ fs.dirs then fs.dirs else fs.dirs ++ [td]).erase td = fs.dirs := by
      rw [if_neg h2, List.erase_append_right _ h2, List.erase_cons_head, List.append_nil]
    by_cases hidx : env.indexOk
    · simp [build_index, hl, hidx, hfiles, hdirs]
    · simp [build_index, hl, hidx, hfiles, hdirs]
  · intro hl
    refine ⟨by simp [build_index, hl], ?_, ?_⟩
    · simp [build_index, hl, if_neg h2]
    · intro hd
      have hw := writeFiles_eq td docs.length fs.files h1
      simp only [build_index, hl, Bool.false_eq_true, if_false, hw]
      apply List.mem_append.mpr
      right
      exact List.mem_map.mpr ⟨0, List.mem_range.mpr (List.length_pos.mpr hd), rfl⟩

theorem build_index_error_state (td et : String) (docs : List String) (env : BuildEnv)
    (e : EngineState) (fs : FS) (msg : String)
    (h : (build_index td et docs env e fs).1 = Except.error msg) :
    (build_index td et docs env e fs).2.1 = e := by
  by_cases hl : env.loadOk
  · by_cases hidx : env.indexOk
    · simp [build_index, hl, hidx] at h
    · simp [build_index, hl, hidx]
  · simp [build_index, hl]

theorem build_index_ok_index (td et : String) (docs : List String) (env : BuildEnv)
    (e : EngineState) (fs : FS) (d : ℚ)
    (h : (build_index td et docs env e fs).1 = Except.ok d) :
    (build_index td et docs env e fs).2.1.index = some env.builtIndex := by
  by_cases hl : env.loadOk
  · by_cases hidx : env.indexOk
    · simp [build_index, hl, hidx]
    · simp [build_index, hl, hidx] at h
  · simp [build_index, hl] at h

/-! ## Claim C2 -/

/-- C2, counterexample: a `build_index` call on which document loading raises
returns the wrapped error but leaves the temporary doc file and the temporary
directory on disk — there is no cleanup on that failure path, so the claimed
guaranteed release is false. -/
theorem c2_cleanup_counterexample :
    (vector_build_index ["doc"] failLoadEnv (mkEngine "llama3.1") emptyFS).1
        = Except.error "Failed to build vector index: io error" ∧
    (vector_build_index ["doc"] failLoadEnv (mkEngine "llama3.1") emptyFS).2.2.files
        = [("temp_docs", 0)] ∧
    (vector_build_index ["doc"] failLoadEnv (mkEngine "llama3.1") emptyFS).2.2.dirs
        = ["temp_docs"] := by
  refine ⟨rfl, by decide, by decide⟩

/-- C2, amended: for both engine variants, starting from a file system with no
leftover temporary artifacts, `build_index` removes the temporary doc files
and the temporary directory before returning whenever document loading
succeeds — that covers the success path and the path where index construction
fails — but when document loading itself raises, the call returns the wrapped
error with the temporary files and directory still present. -/
theorem c2_cleanup (docs : List String) (env : BuildEnv) (e : EngineState) (fs : FS)
    (hv1 : ∀ i, ("temp_docs", i) ∉ fs.files) (hv2 : "temp_docs" ∉ fs.dirs)
    (ht1 : ∀ i, ("temp_docs_tree", i) ∉ fs.files) (ht2 : "temp_docs_tree" ∉ fs.dirs) :
    (env.loadOk = true →
      (vector_build_index docs env e fs).2.2 = fs ∧
      (tree_build_index docs env e fs).2.2 = fs) ∧
    (env.loadOk = false →
      (vector_build_index docs env e fs).1
          = Except.error ("Failed to build vector index: " ++ env.loadErr) ∧
      "temp_docs" ∈ (vector_build_index docs env e fs).2.2.dirs ∧
      (docs ≠ [] → ("temp_docs", 0) ∈ (vector_build_index docs env e fs).2.2.files) ∧
      (tree_build_index docs env e fs).1
          = Except.error ("Failed to build tree index: " ++ env.loadErr) ∧
      "temp_docs_tree" ∈ (tree_build_index docs env e fs).2.2.dirs ∧
      (docs ≠ [] → ("temp_docs_tree", 0) ∈ (tree_build_index docs env e fs).2.2.files)) := by
  have hv := build_index_fs "temp_docs" "Failed to build vector index: " docs env e fs hv1 hv2
  have ht := build_index_fs "temp_docs_tree" "Failed to build tree index: " docs env e fs ht1 ht2
  constructor
  · intro hl
    exact ⟨hv.1 hl, ht.1 hl⟩
  · intro hl
    obtain ⟨a1, a2, a3⟩ := hv.2 hl
    obtain ⟨b1, b2, b3⟩ := ht.2 hl
    exact ⟨a1, a2, a3, b1, b2, b3⟩

/-- C2, witness: `c2_cleanup` applied at a fully successful build from an
empty file system — both variants restore the file system exactly. -/
theorem c2_cleanup_witness :
    (vector_build_index ["doc"] succEnv (mkEngine "llama3.1") emptyFS).2.2 = emptyFS ∧
    (tree_build_index ["doc"] succEnv (mkEngine "llama3.1") emptyFS).2.2 = emptyFS :=
  (c2_cleanup ["doc"] succEnv (mkEngine "llama3.1") emptyFS (by simp [emptyFS])
    (by simp [emptyFS]) (by simp [emptyFS]) (by simp [emptyFS])).1 rfl

/-! ## Claim C10 -/

/-- C10: on a freshly constructed engine `get_build_time` returns 0.0 and
`is_initialized` returns false; for both variants a failing `build_index`
call leaves the whole engine state — in particular the stored build duration
and the index handle — unchanged, so the duration is updated only on the
success path. -/
theorem c10_build_state :
    (∀ m, get_build_time (mkEngine m) = 0 ∧ is_initialized (mkEngine m) = false) ∧
    (∀ docs env e fs msg, (vector_build_index docs env e fs).1 = Except.error msg →
        (vector_build_index docs env e fs).2.1 = e) ∧
    (∀ docs env e fs msg, (tree_build_index docs env e fs).1 = Except.error msg →
        (tree_build_index docs env e fs).2.1 = e) := by
  refine ⟨fun m => ⟨rfl, rfl⟩, ?_, ?_⟩
  · intro docs env e fs msg h
    exact build_index_error_state _ _ docs env e fs msg h
  · intro docs env e fs msg h
    exact build_index_error_state _ _ docs env e fs msg h

/-- C10, witness: `c10_build_state` applied at a build whose document loading
raises — the engine state is returned unchanged. -/
theorem c10_build_state_witness :
    (vector_build_index ["doc"] failLoadEnv (mkEngine "llama3.1") emptyFS).2.1
      = mkEngine "llama3.1" :=
  c10_build_state.2.1 ["doc"] failLoadEnv (mkEngine "llama3.1") emptyFS
    ("Failed to build vector index: " ++ failLoadEnv.loadErr) rfl

/-! ## Claim C4 -/

/-- C4: for both variants, a `query` call on an engine whose index is unset —
which is the state after construction and after every failed build — returns
the not-built error deterministically and never invokes the retrieval backend
(no `similarity_top_k` is handed over); after a successful `build_index` the
index is set, and `query` can no longer fail with the not-built error. -/
theorem c4_query_before_build :
    (∀ e env, e.index = none →
      vector_query e env = (Except.error notBuiltMsg, none) ∧
      tree_query e env = (Except.error notBuiltMsg, none)) ∧
    (∀ m, (mkEngine m).index = none) ∧
    (∀ td et docs benv e fs msg,
      (build_index td et docs benv e fs).1 = Except.error msg →
      (build_index td et docs benv e fs).2.1.index = e.index) ∧
    (∀ td et docs benv e fs d,
      (build_index td et docs benv e fs).1 = Except.ok d →
      ∀ env k, (query (build_index td et docs benv e fs).2.1 k env).1
        ≠ Except.error notBuiltMsg) := by
  refine ⟨?_, fun m => rfl, ?_, ?_⟩
  · intro e env h
    constructor <;> simp [vector_query, tree_query, query, h]
  · intro td et docs benv e fs msg h
    rw [build_index_error_state td et docs benv e fs msg h]
  · intro td et docs benv e fs d h env k
    have hidx : (build_index td et docs benv e fs).2.1.index = some benv.builtIndex :=
      build_index_ok_index td et docs benv e fs d h
    unfold query
    rw [hidx]
    by_cases hq : env.queryOk
    · simp [hq]
    · simpa [hq] using query_failed_ne_notBuilt env.queryErr

/-- C4, witness: `c4_query_before_build` applied at a freshly constructed
engine (query fails, backend untouched) and at an engine after a successful
build (the not-built error can no longer occur). -/
theorem c4_query_before_build_witness :
    vector_query (mkEngine "llama3.1") okQueryEnv = (Except.error notBuiltMsg, none) ∧
    tree_query (mkEngine "llama3.1") okQueryEnv = (Except.error notBuiltMsg, none) ∧
    (query (build_index "temp_docs" "Failed to build vector index: " ["doc"] succEnv
        (mkEngine "llama3.1") emptyFS).2.1 3 okQueryEnv).1 ≠ Except.error notBuiltMsg :=
  ⟨(c4_query_before_build.1 (mkEngine "llama3.1") okQueryEnv rfl).1,
   (c4_query_before_build.1 (mkEngine "llama3.1") okQueryEnv rfl).2,
   c4_query_before_build.2.2.2 "temp_docs" "Failed to build vector index: " ["doc"] succEnv
     (mkEngine "llama3.1") emptyFS succEnv.duration rfl okQueryEnv 3⟩

/-! ## Claim C1 -/

/-- C1, counterexample: at equal execution times the comparison step labels the
Tree variant faster, not Vector — app.py line 207 uses strict less-than, so the
claimed tie-break toward Vector is false. -/
theorem c1_tie_counterexample :
    tieResult.execution_time = tieResult.execution_time ∧
    (buildComparison tieResult tieResult).faster_engine = "Tree" ∧
    (buildComparison tieResult tieResult).faster_engine ≠ "Vector" := by
  have h : (buildComparison tieResult tieResult).faster_engine = "Tree" := by
    simp [buildComparison]
  exact ⟨rfl, h, by rw [h]; decide⟩

/-- C1, amended: when the two execution times are equal the faster-variant
label is "Tree" (the code tie-breaks toward Tree); for every pair of results
the reported time difference is the absolute value of the difference of the
two execution times, hence non-negative. -/
theorem c1_comparison (vr tr : QueryResult) :
    (vr.execution_time = tr.execution_time →
      (buildComparison vr tr).faster_engine = "Tree") ∧
    (buildComparison vr tr).time_diff = |vr.execution_time - tr.execution_time| ∧
    0 ≤ (buildComparison vr tr).time_diff := by
  refine ⟨fun h => ?_, rfl, ?_⟩
  · simp [buildComparison, h]
  · exact abs_nonneg _

/-- C1, witness: `c1_comparison` applied at two equal-time results. -/
theorem c1_comparison_witness :
    (buildComparison tieResult tieResult).faster_engine = "Tree" ∧
    0 ≤ (buildComparison tieResult tieResult).time_diff :=
  ⟨(c1_comparison tieResult tieResult).1 rfl, (c1_comparison tieResult tieResult).2.2⟩

/-! ## Claim C3 -/

/-- C3, counterexample: `chunk_text` does not equal the spec's accumulator.  On
the single-sentence input "Hello" the code returns the chunk "Hello." — the
". " separator is appended to the final sentence as well — while the spec's
accumulator returns "Hello" unaltered, so the concatenation of the code's
chunks does not reproduce the input's sentences. -/
theorem c3_spec_mismatch_counterexample :
    chunk_text helloChars 512 = [['H', 'e', 'l', 'l', 'o', '.']] ∧
    chunkTextSpec helloChars 512 = [helloChars] ∧
    chunk_text helloChars 512 ≠ chunkTextSpec helloChars 512 := by
  refine ⟨by decide, by decide, by decide⟩

/-- C3, amended: `chunk_text` equals the greedy accumulator that splits on
". ", appends ". " to every non-empty sentence (the final one included),
starts a new chunk exactly when appending the next sentence would push the
current chunk past `chunk_size * 4` characters, strips every flushed chunk of
surrounding whitespace, emits the pending chunk mid-loop only when non-empty,
and flushes the final residue only when its strip is non-empty (so the final
sentence may gain a trailing period and surrounding whitespace is dropped,
and the concatenation of chunks need not reproduce the input). -/
theorem c3_chunk_text_amended (text : List Char) (chunk_size : Int) :
    chunk_text text chunk_size = chunkTextAmended text chunk_size := by
  rw [chunk_text, chunkTextAmended, chunkLoop_eq_foldl]

/-! ## Claim C9 -/

/-- C9, counterexample: a whitespace-only input does not give an empty chunk
sequence: the code reattaches ". " to the whitespace piece, so
`chunk_text " "` returns the single chunk ".". -/
theorem c9_whitespace_counterexample :
    (∀ c ∈ [' '], pyIsSpace c = true) ∧
    chunk_text [' '] 512 = [['.']] ∧
    chunk_text [' '] 512 ≠ [] := by
  refine ⟨by decide, by decide, by decide⟩

/-- C9, amended: every chunk returned by `chunk_text` is non-empty and equals
its own strip, and an empty input returns the empty sequence; but a non-empty
whitespace-only input returns the single chunk "." rather than the empty
sequence. -/
theorem c9_chunks_trimmed (text : List Char) (chunk_size : Int) :
    (∀ ch ∈ chunk_text text chunk_size, ch ≠ [] ∧ pyStrip ch = ch) ∧
    chunk_text [] chunk_size = [] ∧
    (text ≠ [] → (∀ c ∈ text, pyIsSpace c = true) →
      chunk_text text chunk_size = [['.']]) := by
  refine ⟨?_, chunk_text_nil chunk_size, chunk_text_ws text chunk_size⟩
  rw [chunk_text]
  exact chunkLoop_chunks chunk_size (splitDotSpace text) [] [] (Or.inl rfl) (by simp)

/-- C9, witness: `c9_chunks_trimmed` applied at the whitespace-only input " "
and at its produced chunk. -/
theorem c9_chunks_trimmed_witness :
    chunk_text [' '] 512 = [['.']] ∧ (['.'] ≠ [] ∧ pyStrip ['.'] = ['.']) :=
  ⟨(c9_chunks_trimmed [' '] 512).2.2 (by decide) (by decide),
   (c9_chunks_trimmed [' '] 512).1 ['.'] (by decide)⟩

/-! ## Claim C5 -/

/-- C5: for every non-negative duration, `format_time` renders values below
one second as milliseconds with one decimal and suffix "ms", values in
[1, 60) as seconds with two decimals and suffix "s", and values of a minute
or more as whole minutes followed by the remaining seconds with one decimal;
in particular 0.5 renders as "500.0ms", 1.234 as "1.23s" and 75.4 as
"1m 15.4s". -/
theorem c5_format_time :
    (∀ s : ℚ, 0 ≤ s → s < 1 → format_time s = fmtFixed (s * 1000) 1 ++ "ms") ∧
    (∀ s : ℚ, 1 ≤ s → s < 60 → format_time s = fmtFixed s 2 ++ "s") ∧
    (∀ s : ℚ, 60 ≤ s →
      format_time s = toString ⌊s / 60⌋ ++ "m " ++ fmtFixed (s - 60 * ⌊s / 60⌋) 1 ++ "s") ∧
    format_time (1 / 2) = "500.0ms" ∧
    format_time (1234 / 1000) = "1.23s" ∧
    format_time (754 / 10) = "1m 15.4s" := by
  refine ⟨?_, ?_, ?_, ?_, ?_, ?_⟩
  · intro s _ h1
    rw [format_time, if_pos h1]
  · intro s h1 h2
    rw [format_time, if_neg (not_lt.mpr h1), if_pos h2]
  · intro s h1
    rw [format_time, if_neg (not_lt.mpr (le_trans (by norm_num) h1)),
      if_neg (not_lt.mpr h1)]
  · rw [format_time, if_pos (by norm_num : (1 / 2 : ℚ) < 1), fmtFixed,
      rndHE_low (1 / 2 * 1000 * (10 : ℚ) ^ 1) 5000 (by norm_num) (by norm_num)]
    rfl
  · rw [format_time, if_neg (by norm_num : ¬ (1234 / 1000 : ℚ) < 1),
      if_pos (by norm_num : (1234 / 1000 : ℚ) < 60), fmtFixed,
      rndHE_low (1234 / 1000 * (10 : ℚ) ^ 2) 123 (by norm_num) (by norm_num)]
    rfl
  · rw [format_time, if_neg (by norm_num : ¬ (754 / 10 : ℚ) < 1),
      if_neg (by norm_num : ¬ (754 / 10 : ℚ) < 60),
      (by norm_num : ⌊(754 / 10 : ℚ) / 60⌋ = (1 : Int))]
    rw [show (754 / 10 : ℚ) - 60 * ((1 : Int) : ℚ) = 154 / 10 by norm_num, fmtFixed,
      rndHE_low (154 / 10 * (10 : ℚ) ^ 1) 154 (by norm_num) (by norm_num)]
    rfl

/-- C5, witness: `c5_format_time` applied in the millisecond band at 0.5 and
in the second band at 1.234. -/
theorem c5_format_time_witness :
    (0 : ℚ) ≤ 1 / 2 ∧ format_time (1 / 2) = fmtFixed (1 / 2 * 1000) 1 ++ "ms" ∧
    (1 : ℚ) ≤ 1234 / 1000 ∧ format_time (1234 / 1000) = fmtFixed (1234 / 1000) 2 ++ "s" :=
  ⟨by norm_num, c5_format_time.1 (1 / 2) (by norm_num) (by norm_num), by norm_num,
   c5_format_time.2.1 (1234 / 1000) (by norm_num) (by norm_num)⟩

/-! ## Claim C6 -/

/-- C6: `validate_pdf` never lets an exception past its boundary (it is a
total function into the result pair): every parse failure of the underlying
reader yields `(false, non-empty message)`, a zero-page document yields
`(false, non-empty message)`, and otherwise the result is `(true, "")` — for
stream-based and path-based inputs alike. -/
theorem c6_validate_pdf (lib : PdfLib) (inp : PdfInput) :
    ((validate_pdf lib inp).1.1 = true → (validate_pdf lib inp).1.2 = "") ∧
    ((validate_pdf lib inp).1.1 = false → (validate_pdf lib inp).1.2 ≠ "") ∧
    (∀ s e, inp = PdfInput.stream s → lib.parseBytes (s.data.drop s.pos) = Except.error e →
      (validate_pdf lib inp).1 = (false, "Invalid PDF file: " ++ e)) ∧
    (∀ s doc, inp = PdfInput.stream s → lib.parseBytes (s.data.drop s.pos) = Except.ok doc →
      doc.numPages = 0 → (validate_pdf lib inp).1 = (false, "PDF file appears to be empty")) ∧
    (∀ s doc, inp = PdfInput.stream s → lib.parseBytes (s.data.drop s.pos) = Except.ok doc →
      doc.numPages ≠ 0 → (validate_pdf lib inp).1 = (true, "")) ∧
    (∀ p e, inp = PdfInput.path p → lib.parsePath p = Except.error e →
      (validate_pdf lib inp).1 = (false, "Invalid PDF file: " ++ e)) ∧
    (∀ p doc, inp = PdfInput.path p → lib.parsePath p = Except.ok doc →
      doc.numPages = 0 → (validate_pdf lib inp).1 = (false, "PDF file appears to be empty")) ∧
    (∀ p doc, inp = PdfInput.path p → lib.parsePath p = Except.ok doc →
      doc.numPages ≠ 0 → (validate_pdf lib inp).1 = (true, "")) := by
  refine ⟨?_, ?_, ?_, ?_, ?_, ?_, ?_, ?_⟩
  · cases inp with
    | stream s =>
        cases hp : lib.parseBytes (s.data.drop s.pos) with
        | error e => simp [validate_pdf, hp]
        | ok doc => by_cases hn : doc.numPages = 0 <;> simp [validate_pdf, hp, hn]
    | path p =>
        cases hp : lib.parsePath p with
        | error e => simp [validate_pdf, hp]
        | ok doc => by_cases hn : doc.numPages = 0 <;> simp [validate_pdf, hp, hn]
  · cases inp with
    | stream s =>
        cases hp : lib.parseBytes (s.data.drop s.pos) with
        | error e => simpa [validate_pdf, hp] using invalid_pdf_msg_ne_empty e
        | ok doc =>
            by_cases hn : doc.numPages = 0 <;> simp [validate_pdf, hp, hn]
    | path p =>
        cases hp : lib.parsePath p with
        | error e => simpa [validate_pdf, hp] using invalid_pdf_msg_ne_empty e
        | ok doc =>
            by_cases hn : doc.numPages = 0 <;> simp [validate_pdf, hp, hn]
  · intro s e hinp hp
    subst hinp
    simp [validate_pdf, hp]
  · intro s doc hinp hp hn
    subst hinp
    simp [validate_pdf, hp, hn]
  · intro s doc hinp hp hn
    subst hinp
    simp [validate_pdf, hp, hn]
  · intro p e hinp hp
    subst hinp
    simp [validate_pdf, hp]
  · intro p doc hinp hp hn
    subst hinp
    simp [validate_pdf, hp, hn]
  · intro p doc hinp hp hn
    subst hinp
    simp [validate_pdf, hp, hn]

/-- C6, witness: `c6_validate_pdf` applied at a reader that rejects the bytes
as corrupt — the validator returns false with a non-empty message instead of
raising. -/
theorem c6_validate_pdf_witness :
    (validate_pdf badLib (PdfInput.stream sampleStream)).1
      = (false, "Invalid PDF file: " ++ "corrupt") ∧
    (validate_pdf badLib (PdfInput.stream sampleStream)).1.2 ≠ "" :=
  ⟨(c6_validate_pdf badLib (PdfInput.stream sampleStream)).2.2.1 sampleStream "corrupt" rfl rfl,
   (c6_validate_pdf badLib (PdfInput.stream sampleStream)).2.1 rfl⟩

/-! ## Claim C7 -/

/-- C7, counterexample: on a corrupt byte stream the validator returns with
the stream position at end-of-stream (where `read()` left it), not at its
pre-inspection value 0 — the `seek(0)` only runs after `PdfReader` succeeds,
so the claimed restoration on every return path is false. -/
theorem c7_stream_pos_counterexample :
    sampleStream.pos = 0 ∧
    (validate_pdf badLib (PdfInput.stream sampleStream)).1.1 = false ∧
    (validate_pdf badLib (PdfInput.stream sampleStream)).2
      = PdfInput.stream { data := [1, 2, 3], pos := 3 } :=
  ⟨rfl, rfl, rfl⟩

/-- C7, amended: when the reader accepts the bytes, `validate_pdf` leaves the
stream rewound to position 0 — the start of the stream, not the
pre-inspection position — on both the zero-page and the valid return path;
when the reader raises, the stream is left at end-of-stream where `read()`
advanced it. -/
theorem c7_stream_pos (lib : PdfLib) (s : ByteStream) :
    (∀ doc, lib.parseBytes (s.data.drop s.pos) = Except.ok doc →
      (validate_pdf lib (PdfInput.stream s)).2
        = PdfInput.stream { data := s.data, pos := 0 }) ∧
    (∀ e, lib.parseBytes (s.data.drop s.pos) = Except.error e →
      (validate_pdf lib (PdfInput.stream s)).2
        = PdfInput.stream { data := s.data, pos := s.data.length }) := by
  constructor
  · intro doc hp
    by_cases hn : doc.numPages = 0 <;> simp [validate_pdf, hp, hn]
  · intro e hp
    simp [validate_pdf, hp]

/-- C7, witness: `c7_stream_pos` applied at the corrupt-stream reader. -/
theorem c7_stream_pos_witness :
    (validate_pdf badLib (PdfInput.stream sampleStream)).2
      = PdfInput.stream { data := sampleStream.data, pos := sampleStream.data.length } :=
  (c7_stream_pos badLib sampleStream).2 "corrupt" rfl

/-! ## Claim C8 -/

/-- C8, counterexample: the placeholder is not returned *exactly* when the
fragment list is empty — a single retrieved fragment whose text is the string
"No sources retrieved" makes `get_source_text` return that very string with a
non-empty fragment list. -/
theorem c8_placeholder_counterexample :
    placeholderResult.source_nodes ≠ [] ∧
    get_source_text placeholderResult = "No sources retrieved" := by
  refine ⟨by decide, rfl⟩

/-- C8, amended: `get_source_text` returns the literal "No sources retrieved"
when the fragment list is empty, and otherwise returns the texts of at most
the first 3 fragments, in stored order, joined by the separator
(a newline, three dashes, a newline). -/
theorem c8_get_source_text (r : QueryResult) :
    (r.source_nodes = [] → get_source_text r = "No sources retrieved") ∧
    (r.source_nodes ≠ [] →
      get_source_text r
        = String.intercalate "\n---\n" ((r.source_nodes.map nodeText).take 3)) := by
  constructor
  · intro h
    rw [get_source_text, if_pos h]
  · intro h
    rw [get_source_text, if_neg h]

/-- C8, witness: `c8_get_source_text` applied at a two-fragment result and at
an empty-fragment result. -/
theorem c8_get_source_text_witness :
    get_source_text twoNodeResult
      = String.intercalate "\n---\n" ((twoNodeResult.source_nodes.map nodeText).take 3) ∧
    get_source_text tieResult = "No sources retrieved" :=
  ⟨(c8_get_source_text twoNodeResult).2 (by decide), (c8_get_source_text tieResult).1 rfl⟩

end Auditor
